import Mathlib

/-!
Verification of the GPU stream-filter benchmark (src/filter/main.cc).

The program builds an OpenCL program with two kernels, `filter` (a stub
that only records the global work size) and `count_positive` (a per-block
positive-element counter), and a host routine `profile_filter` that runs a
sequential reference filter, dispatches `count_positive`, copies the block
counts back, and compares the reference output against `result_gpu`.

The program stores `float` values but only compares them with `0` and
copies them, so rationals model the element type exactly: no floating
point arithmetic ever occurs.
-/

namespace GpuFilter

/-- Element type of the input array. The source uses `float`, but the only
operations ever applied to elements are the comparison `x > 0` and copying,
which are exact, so `ℚ` is a faithful model. -/
abbrev Val := ℚ

/-- The predicate used throughout the program: `x > 0` (main.cc line 73
host side, line 122 device side). -/
def posPred (x : Val) : Bool := decide (0 < x)

/-- Modelled from the spec: the host-side sequential reference filter of
`filter.hh` (included at main.cc line 20, header not under src/). Per §4.4
and §6 of the design, it is a pure single pass keeping, in order, exactly
the elements satisfying the predicate. -/
def sequential_filter (p : Val → Bool) (a : List Val) : List Val := a.filter p

/-- Shared-memory capacity of the device kernels:
`#define BUFFSIZE 1024` (main.cc line 98). -/
def BUFFSIZE : ℕ := 1024

/-- Runs `f` on every element in order and collects the results; if any
call is undefined (`none`, modelling an out-of-bounds access in that
work-group), the whole kernel run is undefined. -/
def seqOption {α β : Type} (f : α → Option β) : List α → Option (List β)
  | [] => some []
  | x :: xs =>
    match f x, seqOption f xs with
    | some y, some ys => some (y :: ys)
    | _, _ => none

/-- One work-group of the `count_positive` kernel (main.cc lines 109-127),
group id `k`, local size `m`. Every lane `t < m` executes
`buff[t] = a[k*m + t]` unconditionally, then after the barrier lane 0
counts the strictly positive entries among `buff[0..m-1]` and stores the
count in `result[k]`. The run is undefined (`none`) when a lane would
write the shared buffer past `BUFFSIZE` or read the input past its length;
the kernel contains no masking of lanes, so the guard is exactly
`m ≤ BUFFSIZE ∧ (k+1)*m ≤ a.length`. -/
def count_positive_group (a : List Val) (m k : ℕ) : Option ℕ :=
  if m ≤ BUFFSIZE ∧ (k + 1) * m ≤ a.length then
    some (((List.range m).map (fun j => a.getD (k * m + j) 0)).countP posPred)
  else
    none

/-- The `count_positive` kernel dispatched over `B` work-groups of local
size `m` (global size `B * m`): group `k` writes `result[k]`. -/
def count_positive (a : List Val) (m B : ℕ) : Option (List ℕ) :=
  seqOption (count_positive_group a m) (List.range B)

/-- One lane of the device `filter` kernel (main.cc lines 99-107), with
global size `n` and global id `i`. The body is
`if (i == 0) res_size[0] = n;` and nothing else: the returned pair is the
lane's write to `res_size[0]` (if any) and its list of writes to the
`result` buffer, which is empty because no statement of the kernel writes
`result`. The `input` buffer is never read. -/
def filter_lane (n i : ℕ) : Option ℤ × List (ℕ × Val) :=
  (if i = 0 then some (n : ℤ) else none, [])

/-- Applies lane `i` of the device `filter` kernel to the memory state
`st` = (content of `res_size[0]`, accumulated writes to `result`). -/
def filter_kernel_step (n : ℕ) (st : Option ℤ × List (ℕ × Val)) (i : ℕ) :
    Option ℤ × List (ℕ × Val) :=
  match (filter_lane n i).1 with
  | some v => (some v, st.2 ++ (filter_lane n i).2)
  | none => (st.1, st.2 ++ (filter_lane n i).2)

/-- The device `filter` kernel run over `n` lanes on buffer `input`
(named `filter` in the OpenCL source; called `filter_kernel` here to
distinguish it from the host-side sequential filter). Returns the final
content of `res_size[0]` (`none` if never written) and the accumulated
list of `(index, value)` writes to the `result` buffer. Lane order is
irrelevant since only lane 0 writes anything. -/
def filter_kernel (input : List Val) (n : ℕ) : Option ℤ × List (ℕ × Val) :=
  (List.range n).foldl (filter_kernel_step n) (none, [])

/-- The fixed work-group size of the host code:
`int local_sz = 256;` (main.cc line 66). -/
def local_sz : ℕ := 256

/-- The number of bins allocated by `profile_filter`:
`std::vector<int> bins(n / local_sz);` (main.cc line 67), C++ integer
division, i.e. the floor of `n / 256`. -/
def bins_size (n : ℕ) : ℕ := n / local_sz

/-- The steps `profile_filter` (main.cc lines 64-89) actually performs,
in program order: the host sequential filter call (line 73), the copy-in
of the input buffer (line 75), the `count_positive` kernel launch
(line 82), the copy-out of the bins (line 85) and the verification call
(line 87). No scan kernel and no compaction kernel appear anywhere in
the function. -/
inductive Phase : Type
  | SeqFilter : Phase
  | CopyIn : Phase
  | CountKernel : Phase
  | CopyOut : Phase
  | Scan : Phase
  | Compact : Phase
  | Verify : Phase
deriving DecidableEq

/-- The phase trace of `profile_filter`, transcribed statement by
statement from main.cc lines 72-88. -/
def profile_filter_phases : List Phase :=
  [Phase.SeqFilter, Phase.CopyIn, Phase.CountKernel, Phase.CopyOut, Phase.Verify]

/-- The vector state of `profile_filter` at the point of the
`verify_vector(result, result_gpu)` call (main.cc line 87). -/
structure ProfileFilterState : Type where
  input : List Val
  bins : Option (List ℕ)
  result : List Val
  result_gpu : List Val

/-- Host routine `profile_filter` (main.cc lines 64-89). The random input
vector of length `n` is a parameter. `result` and `result_gpu` are
default-constructed empty; `reserve(n)` changes capacity only, not
contents. Line 73 fills `result` with the sequential filter of the input
under `x > 0`. The launch at line 82 uses global size `n` and local size
256; in OpenCL 1.2 the local size must divide the global size, otherwise
the enqueue fails (modelled as `none`), and on success `n / 256` groups
run, filling the `n / 256` bins. No later statement writes `result_gpu`. -/
def profile_filter (input : List Val) : ProfileFilterState :=
  let n := input.length
  let result := sequential_filter posPred input
  let bins :=
    if local_sz ∣ n then count_positive input local_sz (n / local_sz) else none
  { input := input, bins := bins, result := result, result_gpu := [] }

/-- Modelled from the spec: the Offset Scanner (§4.2, §6; the scan
utilities of `reduce-scan.hh`, included at main.cc line 22, are not under
src/ and no scan kernel exists in the OpenCL source). Contract:
`offset[i] = Σ_{j<i} count[j]`, the exclusive prefix sum of the block
counts. -/
def exclusive_scan (counts : List ℕ) : List ℕ :=
  (List.range counts.length).map (fun i => (counts.take i).sum)

/-- Modelled from the spec: the Compaction Writer (§4.3; no compaction
kernel exists in the OpenCL source — the `filter` kernel is a stub).
Block `k` is walked in index order by a single elected lane holding a
running counter `j` of matches seen so far in the block; each match is
written to destination `offset[k] + j`. Returns the list of
`(destination, value)` writes in the order they are issued. -/
def compact_writes (a : List Val) (L : ℕ) (offsets : List ℕ) : List (ℕ × Val) :=
  (List.range offsets.length).flatMap (fun k =>
    (((a.drop (k * L)).take L).filter posPred).enum.map
      (fun jv => (offsets.getD k 0 + jv.1, jv.2)))

/-! ### Helper lemmas -/

theorem seqOption_eq_some {α β : Type} (f : α → Option β) (g : α → β) :
    ∀ l : List α, (∀ x ∈ l, f x = some (g x)) → seqOption f l = some (l.map g)
  | [], _ => rfl
  | x :: xs, h => by
    have hx := h x (List.mem_cons_self x xs)
    have hxs := seqOption_eq_some f g xs (fun y hy => h y (List.mem_cons_of_mem x hy))
    simp [seqOption, hx, hxs]

theorem range_map_getD (a : List Val) (s L : ℕ) (h : s + L ≤ a.length) :
    (List.range L).map (fun j => a.getD (s + j) 0) = (a.drop s).take L := by
  apply List.ext_getElem
  · simp only [List.length_map, List.length_range, List.length_take, List.length_drop]
    omega
  · intro n h1 h2
    simp only [List.length_map, List.length_range] at h1
    have hn : s + n < a.length := by omega
    rw [List.getElem_map, List.getElem_range, List.getElem_take, List.getElem_drop,
      List.getD_eq_getElem a 0 hn]

theorem getD_map_range {β : Type} (g : ℕ → β) (d : β) (B k : ℕ) (hk : k < B) :
    ((List.range B).map g).getD k d = g k := by
  rw [List.getD_eq_getElem?_getD, List.getElem?_map, List.getElem?_range hk]
  rfl

theorem foldl_filter_kernel_step_id (n : ℕ) :
    ∀ l : List ℕ, (∀ i ∈ l, i ≠ 0) → ∀ st : Option ℤ × List (ℕ × Val),
      l.foldl (filter_kernel_step n) st = st
  | [], _, _ => rfl
  | x :: xs, h, st => by
    have hx : x ≠ 0 := h x (List.mem_cons_self x xs)
    have hstep : filter_kernel_step n st x = st := by
      simp [filter_kernel_step, filter_lane, hx]
    rw [List.foldl_cons, hstep]
    exact foldl_filter_kernel_step_id n xs (fun y hy => h y (List.mem_cons_of_mem x hy)) st

/-! ### Claim theorems -/

/-- C2: for an input of length `N = B * L` with the work-group size `L`
at most the shared-buffer capacity 1024, the `count_positive` kernel runs
without undefined behaviour and, for every block index `k < B`, stores in
`result[k]` the number of elements of block `k` (input indices
`k*L .. k*L+L-1`) that are strictly greater than 0. -/
theorem count_positive_block_counts (a : List Val) (L B k : ℕ)
    (hL : L ≤ BUFFSIZE) (hlen : a.length = B * L) (hk : k < B) :
    ∃ cs, count_positive a L B = some cs ∧
      cs.getD k 0 = ((a.drop (k * L)).take L).countP posPred := by
  have hall : ∀ x ∈ List.range B,
      count_positive_group a L x = some (((a.drop (x * L)).take L).countP posPred) := by
    intro x hx
    rw [List.mem_range] at hx
    have hbound : (x + 1) * L ≤ a.length := by
      rw [hlen]
      exact Nat.mul_le_mul_right L hx
    have hin : x * L + L ≤ a.length := by
      rw [Nat.succ_mul] at hbound
      exact hbound
    unfold count_positive_group
    rw [if_pos ⟨hL, hbound⟩, range_map_getD a (x * L) L hin]
  exact ⟨(List.range B).map (fun x => ((a.drop (x * L)).take L).countP posPred),
    seqOption_eq_some _ _ _ hall, getD_map_range _ _ _ _ hk⟩

/-- Witness for C2 at the concrete block-boundary scenario: input
`[1,-1,2,-2,3,-3]`, `L = 2`, `B = 3`, block `k = 1`. -/
theorem count_positive_block_counts_witness :
    ((2 ≤ BUFFSIZE) ∧ ([1, -1, 2, -2, 3, -3] : List Val).length = 3 * 2 ∧ 1 < 3) ∧
      ∃ cs, count_positive [1, -1, 2, -2, 3, -3] 2 3 = some cs ∧
        cs.getD 1 0 = ((([1, -1, 2, -2, 3, -3] : List Val).drop (1 * 2)).take 2).countP posPred :=
  ⟨⟨by decide, by decide, by decide⟩,
    count_positive_block_counts [1, -1, 2, -2, 3, -3] 2 3 1 (by decide) (by decide) (by decide)⟩

/-- C1 (code evaluated at the failing input): on input `[1, -1]` with
global size 2, the device `filter` kernel sets `res_size[0]` to the global
work size 2 and writes nothing to the `result` buffer, while the
sequential reference filter produces the packed sequence `[1]` of logical
length 1 — the entry point does not produce the sequential output nor the
exact logical length. -/
theorem filter_kernel_no_compaction :
    (filter_kernel [1, -1] 2).1 = some 2 ∧ (filter_kernel [1, -1] 2).2 = [] ∧
      sequential_filter posPred [1, -1] = [1] := by decide

/-- C3 (code evaluated at the failing input): a `count_positive`
work-group of local size 2 over an input of length 1 (so the lane with
global index 1 is past the end of the input) performs an out-of-bounds
read — the kernel contains no masking, so the run is undefined rather
than the masked count `some 1` the claim requires. -/
theorem count_positive_tail_group_oob :
    count_positive_group [1] 2 0 = none := by decide

/-- C4 (code evaluated): the phase trace of `profile_filter` contains
neither a scan phase nor a compaction phase — only the sequential filter,
the copy-in, the `count_positive` launch, the copy-out and the
verification call; no offset scan is ever performed. -/
theorem profile_filter_no_scan_phase :
    Phase.Scan ∉ profile_filter_phases ∧ Phase.Compact ∉ profile_filter_phases := by
  decide

/-- C5 (code evaluated at the failing input): on input `[1]` the total
count of surviving elements is 1, so the claim requires the destination
index set `{0}`; the device `filter` kernel computes no destination
indices at all (its write list to `result` is empty). -/
theorem filter_kernel_dest_indices_empty :
    ((filter_kernel [1] 1).2.map Prod.fst) = [] ∧
      (sequential_filter posPred [1]).length = 1 := by decide

/-- C6 counterexample: with input length `N = 5` and the block size
`L = 256` used by `profile_filter`, the allocated Block Count Table has
`5 / 256 = 0` entries, not `⌈5/256⌉ = 1`: the final short block gets no
entry. -/
theorem bins_size_not_ceil :
    bins_size 5 ≠ (5 + local_sz - 1) / local_sz := by decide

/-- C6 (amended): the Block Count Table allocated by `profile_filter` has
exactly `⌊N/L⌋` entries (C++ integer division `n / local_sz`); when `L`
divides `N` this coincides with `⌈N/L⌉`. -/
theorem bins_size_floor (n : ℕ) (h : local_sz ∣ n) :
    bins_size n = n / local_sz ∧ bins_size n = (n + local_sz - 1) / local_sz := by
  obtain ⟨q, rfl⟩ := h
  refine ⟨rfl, ?_⟩
  simp only [bins_size, local_sz]
  omega

/-- Witness for the amended C6 at `N = 512`, a multiple of 256. -/
theorem bins_size_floor_witness :
    local_sz ∣ 512 ∧
      (bins_size 512 = 512 / local_sz ∧ bins_size 512 = (512 + local_sz - 1) / local_sz) :=
  ⟨by decide, bins_size_floor 512 (by decide)⟩

/-- C7: with `L = 2` and input `[1,-1,2,-2,3,-3]` under the predicate
`x > 0`, the embedded `count_positive` kernel yields block counts
`[1,1,1]`, the (spec-modelled) Offset Scanner yields offsets `[0,1,2]`,
and the (spec-modelled) Compaction Writer writes exactly the values
`[1,2,3]` to the destinations `[0,1,2]`. -/
theorem filter_block_boundary_scenario :
    count_positive [1, -1, 2, -2, 3, -3] 2 3 = some [1, 1, 1] ∧
      exclusive_scan [1, 1, 1] = [0, 1, 2] ∧
      (compact_writes [1, -1, 2, -2, 3, -3] 2 (exclusive_scan [1, 1, 1])).map Prod.snd
        = [1, 2, 3] ∧
      (compact_writes [1, -1, 2, -2, 3, -3] 2 (exclusive_scan [1, 1, 1])).map Prod.fst
        = [0, 1, 2] := by decide

/-- C8: filtering an already-filtered array again with the same predicate
is a no-op: `sequential_filter p (sequential_filter p a) =
sequential_filter p a`. -/
theorem sequential_filter_idempotent (p : Val → Bool) (a : List Val) :
    sequential_filter p (sequential_filter p a) = sequential_filter p a := by
  unfold sequential_filter
  rw [List.filter_filter]
  simp [Bool.and_self]

/-- C9: whenever the device `filter` kernel runs over a positive global
size `n`, it sets `res_size[0]` to `n` — independently of the input
values, which it never reads — and performs no write to the `result`
buffer. -/
theorem filter_kernel_stub_semantics (input : List Val) (n : ℕ) (h : 0 < n) :
    filter_kernel input n = (some (n : ℤ), []) := by
  obtain ⟨m, rfl⟩ : ∃ m, n = m + 1 := ⟨n - 1, by omega⟩
  unfold filter_kernel
  rw [List.range_succ_eq_map, List.foldl_cons]
  have h0 : filter_kernel_step (m + 1) (none, []) 0 = (some ((m + 1 : ℕ) : ℤ), []) := by
    simp [filter_kernel_step, filter_lane]
  rw [h0]
  exact foldl_filter_kernel_step_id (m + 1) _
    (fun i hi => by
      simp only [List.mem_map] at hi
      obtain ⟨j, _, rfl⟩ := hi
      exact Nat.succ_ne_zero j) _

/-- Witness for C9 at input `[1, -2]` and global size 2. -/
theorem filter_kernel_stub_semantics_witness :
    0 < 2 ∧ filter_kernel [1, -2] 2 = (some (2 : ℤ), []) :=
  ⟨by decide, filter_kernel_stub_semantics [1, -2] 2 (by decide)⟩

/-- C10: for every input, `result_gpu` is still the empty vector when
`profile_filter` reaches the `verify_vector(result, result_gpu)` call:
it is default-constructed empty, `reserve` does not change its contents,
and no statement of the function ever writes it. -/
theorem profile_filter_result_gpu_empty (input : List Val) :
    (profile_filter input).result_gpu = [] := rfl

end GpuFilter
